import Mathlib

/-!
Shallow embedding of the drizzle-query-factory translation engine.

Sources embedded:
- `src/parse-list-query.ts` — `resolveParams`, `parseIntClamped`, `parseListQuery`
- `src/operators.ts` — `operatorMap`, `applyOperator`
- `src/run-list-query.ts` — `composeWhere`, `runListQuery` (rows mode)

Modelling conventions:
- A JavaScript `Record<string, T>` is embedded as an association list
  `List (String × T)`. Declared (own) keys are looked up by first-match
  (`recordGet`); actual JS property access and the `in` operator also find
  the members plain object literals inherit from `Object.prototype`
  (`constructor`, `toString`, ...), which `jsRecordGet` / `jsHasProp` model
  with the three-valued `JsProp` (own / inherited / undefined).
- `URLSearchParams` is embedded as an ordered list of `(key, value)` string
  pairs with duplicates retained; `URLSearchParams.get` returns the first
  occurrence (`getParam`), `entries()` iterates the list in order.
- Drizzle `SQL` values are opaque; we embed them as the inductive `SQLExpr`
  recording exactly which drizzle builder was called with which arguments.
- JavaScript numbers are embedded as `Int` (every value flowing through the
  pagination path is integral); the `Infinity` upper bound passed for the
  offset clamp is embedded as `none` in the optional upper bound.
- `parseInt(raw, 10)` is embedded as `jsParseInt`: skip leading whitespace,
  optional sign, then the longest run of leading decimal digits; `none`
  models `NaN`.
- Caller-supplied coercion functions (`ColumnFilter.parse`) and custom
  filters are opaque Lean functions, mirroring the opaque callables of the
  source.
-/

/-- Opaque handle for a drizzle column (owned by the external data layer). -/
structure Column where
  name : String
deriving DecidableEq, Repr

/-- Result of a JavaScript property read on a plain-object record:
`own v` — the key is an own (declared) property with value `v`;
`inherited` — the key is not declared but is found on `Object.prototype`
(the value is one of its members: a function or object — truthy, and not a
value of the record's declared type); `undef` — the property is absent
altogether (`undefined`). -/
inductive JsProp (α : Type) where
  | own (value : α)
  | inherited
  | undef
deriving DecidableEq, Repr

/-- The own property names of `Object.prototype`, inherited by every plain
object literal (the configs in the source's types, tests and README are all
object literals): both property access `record[key]` and the `in` operator
find them when the key is not an own property. -/
def OBJECT_PROTOTYPE_KEYS : List String :=
  ["constructor", "hasOwnProperty", "isPrototypeOf", "propertyIsEnumerable",
   "toLocaleString", "toString", "valueOf", "__proto__", "__defineGetter__",
   "__defineSetter__", "__lookupGetter__", "__lookupSetter__"]

/-- Comparison operator applied to a column filter (`FilterOp` in `types.ts`).
`inOp` embeds the source's `"in"` operator tag. -/
inductive FilterOp where
  | eq
  | like
  | gt
  | gte
  | lt
  | lte
  | inOp
deriving DecidableEq, Repr

/-- A JavaScript value as produced by coercion functions and consumed by the
operator map: strings, numbers, arrays of values, or `undefined`. -/
inductive JsValue where
  | str (s : String)
  | num (n : Int)
  | arr (vs : List JsValue)
  | undef
deriving Repr

mutual

/-- JavaScript `String(v)` as used by the `like` operator's pattern
wrapping: strings unchanged, numbers printed, `undefined` as `undefined`,
arrays joined with commas. -/
def jsString : JsValue → String
  | JsValue.str s => s
  | JsValue.num n => toString n
  | JsValue.arr vs => jsJoinArray vs
  | JsValue.undef => "undefined"

/-- `Array.prototype.join(",")`: elements rendered via `String`, except
`undefined` elements which render as the empty string. -/
def jsJoinArray : List JsValue → String
  | [] => ""
  | [JsValue.undef] => ""
  | [v] => jsString v
  | JsValue.undef :: rest => "," ++ jsJoinArray rest
  | v :: rest => jsString v ++ "," ++ jsJoinArray rest

end

/-- Opaque drizzle `SQL` expression: one constructor per drizzle builder the
source calls (`eq`, `like`, `gt`, `gte`, `lt`, `lte`, `inArray`, `and`,
`asc`, `desc`), plus `rawE` for consumer-built SQL returned by custom
filters. The comparison constructors take an `Option Column` because the
runtime value reaching `applyOperator` is either a declared column or
`undefined` (when the filter lookup hit an inherited `Object.prototype`
member, whose `.column` is `undefined`). `ascE`/`descE` take a
`JsProp Column` because the source reads
`config.sortable[resolvedSortKey]!` — a lookup that can yield the declared
column, an inherited prototype member, or `undefined` — and passes the
result straight to `asc`/`desc`. -/
inductive SQLExpr where
  | eqE (col : Option Column) (v : JsValue)
  | likeE (col : Option Column) (pattern : String)
  | gtE (col : Option Column) (v : JsValue)
  | gteE (col : Option Column) (v : JsValue)
  | ltE (col : Option Column) (v : JsValue)
  | lteE (col : Option Column) (v : JsValue)
  | inArrayE (col : Option Column) (vs : List JsValue)
  | andE (conds : List SQLExpr)
  | ascE (col : JsProp Column)
  | descE (col : JsProp Column)
  | rawE (s : String)
deriving Repr

/-- `operatorMap` + `applyOperator` from `operators.ts`: resolves a
`FilterOp`, column and value into a drizzle condition. `like` wraps the
value in percent signs; `in` coerces a non-array value into a one-element
array before `inArray`. The column argument is the runtime value the
source passes (a declared column, or `undefined` from a prototype-member
lookup). -/
def applyOperator (op : FilterOp) (column : Option Column) (value : JsValue) :
    SQLExpr :=
  match op with
  | FilterOp.eq => SQLExpr.eqE column value
  | FilterOp.like => SQLExpr.likeE column ("%" ++ jsString value ++ "%")
  | FilterOp.gt => SQLExpr.gtE column value
  | FilterOp.gte => SQLExpr.gteE column value
  | FilterOp.lt => SQLExpr.ltE column value
  | FilterOp.lte => SQLExpr.lteE column value
  | FilterOp.inOp =>
    match value with
    | JsValue.arr vs => SQLExpr.inArrayE column vs
    | v => SQLExpr.inArrayE column [v]

/-- `ColumnFilter` from `types.ts`: target column, optional operator
(default `eq`), optional coercion from raw string (default identity, i.e.
string passthrough). -/
structure ColumnFilter where
  column : Column
  op : Option FilterOp
  parse : Option (String → JsValue)

/-- Sort direction; the source represents it as the strings
`"asc"` / `"desc"`. -/
inductive SortDir where
  | asc
  | desc
deriving DecidableEq, Repr

/-- `ListQueryConfig.defaultSort` from `types.ts`. -/
structure DefaultSort where
  key : String
  dir : SortDir

/-- `ListQueryConfig` from `types.ts`. Records are embedded as association
lists; `customFilters` being optional in the source is embedded as the
empty list when absent. A custom filter returns `none` to signal "skip". -/
structure ListQueryConfig where
  filters : List (String × ColumnFilter)
  customFilters : List (String × (String → Option SQLExpr))
  sortable : List (String × Column)
  defaultSort : DefaultSort
  defaultLimit : Option Int
  maxLimit : Option Int

/-- `ParsedListQuery` from `types.ts` (`where_` embeds the `where` field,
which is a reserved word in Lean). -/
structure ParsedListQuery where
  where_ : Option SQLExpr
  orderBy : SQLExpr
  limit : Int
  offset : Int

/-- `QueryInput` from `types.ts`: the four accepted shapes. Each carries the
ordered key/value pairs its `URLSearchParams` resolves to: a `URL` carries
its `searchParams`, a `Request` the `searchParams` of its URL, and a plain
record its entries (converted via `new URLSearchParams(record)`, which
preserves entry order). -/
inductive QueryInput where
  | searchParams (pairs : List (String × String))
  | url (pairs : List (String × String))
  | request (pairs : List (String × String))
  | record (pairs : List (String × String))

/-- `resolveParams` from `parse-list-query.ts`: normalises any supported
`QueryInput` into the ordered pair list of its `URLSearchParams`. -/
def resolveParams : QueryInput → List (String × String)
  | QueryInput.searchParams ps => ps
  | QueryInput.url ps => ps
  | QueryInput.request ps => ps
  | QueryInput.record ps => ps

/-- `URLSearchParams.get`: the value of the FIRST pair with the given name,
or `none` when the name is absent. -/
def getParam (params : List (String × String)) (name : String) : Option String :=
  (params.find? (fun kv => kv.1 == name)).map (fun kv => kv.2)

/-- Lookup of a DECLARED (own) key on a record, embedded as first-match
lookup over the association list; `none` means the key is not declared.
Actual JS property access also finds inherited `Object.prototype` members —
that full behaviour is `jsRecordGet`. -/
def recordGet {α : Type} (record : List (String × α)) (key : String) :
    Option α :=
  (record.find? (fun entry => entry.1 == key)).map (fun entry => entry.2)

/-- JavaScript property access `record[key]` on a plain-object record:
an own (declared) key yields its value; otherwise a key inherited from
`Object.prototype` yields that (truthy, non-record-typed) member; otherwise
the access yields `undefined`. -/
def jsRecordGet {α : Type} (record : List (String × α)) (key : String) :
    JsProp α :=
  match recordGet record key with
  | some v => JsProp.own v
  | none =>
    if OBJECT_PROTOTYPE_KEYS.contains key then JsProp.inherited
    else JsProp.undef

/-- The JavaScript `in` operator on a plain-object record: true for own
keys and for keys inherited from `Object.prototype`. -/
def jsHasProp {α : Type} (record : List (String × α)) (key : String) : Bool :=
  match jsRecordGet record key with
  | JsProp.undef => false
  | _ => true

/-- `DEFAULT_LIMIT` from `parse-list-query.ts`. -/
def DEFAULT_LIMIT : Int := 20

/-- `MAX_LIMIT` from `parse-list-query.ts`. -/
def MAX_LIMIT : Int := 100

/-- `RESERVED_PARAMS` from `parse-list-query.ts`: params consumed by the
factory itself, never forwarded to filters. -/
def RESERVED_PARAMS : List String := ["sort", "order", "limit", "offset"]

/-- JavaScript `rawValue.split(",")` over the character list: split at every
comma, retaining empty segments (consecutive, leading and trailing commas
each contribute one); the empty input yields one empty segment, matching
`"".split(",") === [""]`. -/
def jsSplitCommaChars : List Char → List (List Char)
  | [] => [[]]
  | c :: rest =>
    if c = ',' then [] :: jsSplitCommaChars rest
    else
      match jsSplitCommaChars rest with
      | [] => [[c]]
      | seg :: segs => (c :: seg) :: segs

/-- JavaScript `rawValue.split(",")` on strings. -/
def jsSplitComma (s : String) : List String :=
  (jsSplitCommaChars s.toList).map (fun cs => String.mk cs)

/-- The JavaScript WhiteSpace and LineTerminator characters trimmed by
`parseInt`: ASCII whitespace plus VT, FF, NBSP, the Unicode space
separators, the line/paragraph separators and the BOM. -/
def jsIsWhitespace (c : Char) : Bool :=
  c = ' ' || c = '\t' || c = '\n' || c = '\r' ||
  c = Char.ofNat 0x0B || c = Char.ofNat 0x0C ||
  c = Char.ofNat 0xA0 || c = Char.ofNat 0x1680 ||
  (0x2000 ≤ c.toNat && c.toNat ≤ 0x200A) ||
  c = Char.ofNat 0x2028 || c = Char.ofNat 0x2029 ||
  c = Char.ofNat 0x202F || c = Char.ofNat 0x205F ||
  c = Char.ofNat 0x3000 || c = Char.ofNat 0xFEFF

/-- JavaScript `parseInt(s, 10)`: skip leading whitespace, read an optional
sign, then the longest run of leading decimal digits; `none` models `NaN`
(no digits). Fractional suffixes and trailing garbage are dropped, so the
result is the truncated leading integer. -/
def jsParseInt (s : String) : Option Int :=
  let cs := s.toList.dropWhile jsIsWhitespace
  let signAndRest : Int × List Char :=
    match cs with
    | '-' :: rest => (-1, rest)
    | '+' :: rest => (1, rest)
    | _ => (1, cs)
  let digits := signAndRest.2.takeWhile Char.isDigit
  match digits with
  | [] => none
  | _ =>
    some (signAndRest.1 *
      (digits.foldl (fun acc c => acc * 10 + (Int.ofNat (c.toNat - Char.toNat '0'))) 0))

/-- `parseIntClamped` from `parse-list-query.ts`: parse a string to int,
clamping to `[lo, hi]`, or return `fallback` on NaN / null. The source
passes `Infinity` as the upper bound for the offset; that unbounded case is
embedded as `hi = none`. -/
def parseIntClamped (raw : Option String) (lo : Int) (hi : Option Int)
    (fallback : Int) : Int :=
  match raw with
  | none => fallback
  | some s =>
    match jsParseInt s with
    | none => fallback
    | some parsed =>
      max lo (match hi with
              | some h => min h parsed
              | none => parsed)

/-- The filter loop of `parseListQuery` (lines 80–107 of
`parse-list-query.ts`), written as structural recursion over the pair list;
each pair contributes the conditions it pushes (zero or one), in iteration
order. Reserved names and empty values are skipped. The lookup
`config.filters[key]` is JS property access: a declared column filter
applies its operator (default `eq`) and coercion (default identity, mapped
over the comma-split segments for the `in` operator); a key inherited from
`Object.prototype` (e.g. `constructor`) also passes the `if (columnFilter)`
truthiness test, and the same lines then read `.op`/`.parse`/`.column` off
the prototype member — all `undefined` — so they push
`eq(undefined, rawValue)`. Only when the access yields `undefined` is the
custom filter consulted (its inherited case is unreachable: every prototype
key was already captured by the column-filter access); undeclared names are
ignored. -/
def filterConditions (config : ListQueryConfig) :
    List (String × String) → List SQLExpr
  | [] => []
  | (key, rawValue) :: rest =>
    (if RESERVED_PARAMS.contains key then []
     else if rawValue == "" then []
     else
       match jsRecordGet config.filters key with
       | JsProp.own columnFilter =>
         let op := columnFilter.op.getD FilterOp.eq
         let parse := columnFilter.parse.getD JsValue.str
         let value : JsValue :=
           if op == FilterOp.inOp then
             JsValue.arr ((jsSplitComma rawValue).map parse)
           else
             parse rawValue
         [applyOperator op (some columnFilter.column) value]
       | JsProp.inherited =>
         [applyOperator FilterOp.eq none (JsValue.str rawValue)]
       | JsProp.undef =>
         match jsRecordGet config.customFilters key with
         | JsProp.own customFilter =>
           match customFilter rawValue with
           | some result => [result]
           | none => []
         | JsProp.inherited => []
         | JsProp.undef => []) ++ filterConditions config rest

/-- `parseListQuery` from `parse-list-query.ts`: parses query parameters
into a `ParsedListQuery`. Filters are AND-ed (or absent when none matched);
the sort test `sortKey && sortKey in config.sortable` is the JS `in`
operator (own or inherited key), with fallback to `config.defaultSort`
otherwise, and `config.sortable[resolvedSortKey]!` is JS property access;
limit is clamped to `[1, maxLimit]` with `defaultLimit` as the NaN/absent
fallback, offset to `[0, ∞)` with fallback 0. -/
def parseListQuery (input : QueryInput) (config : ListQueryConfig) :
    ParsedListQuery :=
  let params := resolveParams input
  let defaultLimit := config.defaultLimit.getD DEFAULT_LIMIT
  let maxLimit := config.maxLimit.getD MAX_LIMIT
  let conditions := filterConditions config params
  let where_ : Option SQLExpr :=
    match conditions with
    | [] => none
    | _ => some (SQLExpr.andE conditions)
  let sortKey := getParam params "sort"
  let sortDir := getParam params "order"
  let resolvedSortKey : String :=
    match sortKey with
    | some k =>
      if k != "" && jsHasProp config.sortable k then k
      else config.defaultSort.key
    | none => config.defaultSort.key
  let resolvedSortDir : SortDir :=
    match sortDir with
    | some "asc" => SortDir.asc
    | some "desc" => SortDir.desc
    | _ => config.defaultSort.dir
  let sortColumn := jsRecordGet config.sortable resolvedSortKey
  let orderBy : SQLExpr :=
    match resolvedSortDir with
    | SortDir.asc => SQLExpr.ascE sortColumn
    | SortDir.desc => SQLExpr.descE sortColumn
  let limit := parseIntClamped (getParam params "limit") 1 (some maxLimit)
    defaultLimit
  let offset := parseIntClamped (getParam params "offset") 0 none 0
  { where_ := where_, orderBy := orderBy, limit := limit, offset := offset }

/-- The external data-store capability consumed by `runListQuery`: `select`
builds and runs the filtered/ordered/limited/offset row query, `countTotals`
runs the `count(*)` query over a where-condition and returns the `total`
column of each returned row (`countResult[0]?.total` reads the first). -/
structure Db (Row : Type) where
  selectRows : Option SQLExpr → SQLExpr → Int → Int → List Row
  countTotals : Option SQLExpr → List Int

/-- `ListQueryResult` as returned by `runListQuery` in `"rows"` mode. -/
structure ListQueryResult (Row : Type) where
  rows : List Row
  total : Int
  has_more : Bool

/-- `composeWhere` from `run-list-query.ts`: AND both conditions when both
are present, otherwise whichever is present, otherwise none. -/
def composeWhere (baseWhere queryWhere : Option SQLExpr) : Option SQLExpr :=
  match baseWhere, queryWhere with
  | some b, some q => some (SQLExpr.andE [b, q])
  | some b, none => some b
  | none, q => q

/-- `runListQuery` from `run-list-query.ts` (rows mode), over a pre-parsed
query. With `shouldCount = true` it runs the row query and the count query
over the composed condition: `total` is the first count row (0 when the
count result set is empty) and `has_more = offset + rows.length < total`.
With `shouldCount = false` it runs only the row query: `total = offset +
rows.length` and `has_more = (rows.length === limit)`. -/
def runListQuery {Row : Type} (db : Db Row) (baseWhere : Option SQLExpr)
    (query : ParsedListQuery) (shouldCount : Bool) : ListQueryResult Row :=
  let finalWhere := composeWhere baseWhere query.where_
  if shouldCount then
    let rows := db.selectRows finalWhere query.orderBy query.limit query.offset
    let total := (db.countTotals finalWhere).head?.getD 0
    { rows := rows
      total := total
      has_more := decide (query.offset + (rows.length : Int) < total) }
  else
    let rows := db.selectRows finalWhere query.orderBy query.limit query.offset
    { rows := rows
      total := query.offset + (rows.length : Int)
      has_more := ((rows.length : Int) == query.limit) }

/-! ### Helper lemmas about the embedded primitives -/

theorem getParam_nil (name : String) : getParam [] name = none := rfl

theorem getParam_cons (kv : String × String) (ps : List (String × String))
    (name : String) :
    getParam (kv :: ps) name =
      if kv.1 == name then some kv.2 else getParam ps name := by
  cases h : kv.1 == name <;> simp [getParam, List.find?_cons, h]

theorem getParam_eq_none_of_absent (qs : List (String × String)) (name : String)
    (h : ∀ kv ∈ qs, (kv.1 == name) = false) : getParam qs name = none := by
  induction qs with
  | nil => rfl
  | cons kv rest ih =>
    rw [getParam_cons, h kv (by simp)]
    exact ih (fun p hp => h p (by simp [hp]))

theorem getParam_append_of_absent_right (ps qs : List (String × String))
    (name : String) (h : ∀ kv ∈ qs, (kv.1 == name) = false) :
    getParam (ps ++ qs) name = getParam ps name := by
  induction ps with
  | nil => simpa using getParam_eq_none_of_absent qs name h
  | cons kv rest ih =>
    rw [List.cons_append, getParam_cons, getParam_cons, ih]

theorem getParam_append_of_found (ps qs : List (String × String)) (name : String)
    (h : ps.any (fun kv => kv.1 == name) = true) :
    getParam (ps ++ qs) name = getParam ps name := by
  induction ps with
  | nil => simp at h
  | cons kv rest ih =>
    rw [List.cons_append, getParam_cons, getParam_cons]
    cases hk : kv.1 == name with
    | true => simp
    | false =>
      simp only [hk, if_neg Bool.false_ne_true]
      exact ih (by simpa [List.any_cons, hk] using h)

theorem parseIntClamped_null (lo : Int) (hi : Option Int) (fallback : Int) :
    parseIntClamped none lo hi fallback = fallback := rfl

theorem parseIntClamped_nan (s : String) (lo : Int) (hi : Option Int)
    (fallback : Int) (hp : jsParseInt s = none) :
    parseIntClamped (some s) lo hi fallback = fallback := by
  simp [parseIntClamped, hp]

theorem parseIntClamped_parsed_bounded (s : String) (lo h fallback : Int)
    (n : Int) (hp : jsParseInt s = some n) :
    parseIntClamped (some s) lo (some h) fallback = max lo (min h n) := by
  simp [parseIntClamped, hp]

theorem parseIntClamped_parsed_unbounded (s : String) (lo fallback : Int)
    (n : Int) (hp : jsParseInt s = some n) :
    parseIntClamped (some s) lo none fallback = max lo n := by
  simp [parseIntClamped, hp]

theorem parseIntClamped_eq_fallback_or_ge (raw : Option String) (lo : Int)
    (hi : Option Int) (fallback : Int) :
    parseIntClamped raw lo hi fallback = fallback ∨
      lo ≤ parseIntClamped raw lo hi fallback := by
  cases raw with
  | none => exact Or.inl (parseIntClamped_null lo hi fallback)
  | some s =>
    cases hp : jsParseInt s with
    | none => exact Or.inl (parseIntClamped_nan s lo hi fallback hp)
    | some n =>
      cases hi with
      | none =>
        rw [parseIntClamped_parsed_unbounded s lo fallback n hp]
        exact Or.inr (le_max_left lo n)
      | some h =>
        rw [parseIntClamped_parsed_bounded s lo h fallback n hp]
        exact Or.inr (le_max_left lo _)

/-! ### Projection lemmas: the four fields of `parseListQuery`'s result -/

theorem parseListQuery_where (input : QueryInput) (config : ListQueryConfig) :
    (parseListQuery input config).where_ =
      (match filterConditions config (resolveParams input) with
       | [] => none
       | _ => some (SQLExpr.andE (filterConditions config (resolveParams input)))) :=
  rfl

theorem parseListQuery_orderBy (input : QueryInput) (config : ListQueryConfig) :
    (parseListQuery input config).orderBy =
      (match (match getParam (resolveParams input) "order" with
              | some "asc" => SortDir.asc
              | some "desc" => SortDir.desc
              | _ => config.defaultSort.dir) with
       | SortDir.asc =>
         SQLExpr.ascE (jsRecordGet config.sortable
           (match getParam (resolveParams input) "sort" with
            | some k =>
              if k != "" && jsHasProp config.sortable k then k
              else config.defaultSort.key
            | none => config.defaultSort.key))
       | SortDir.desc =>
         SQLExpr.descE (jsRecordGet config.sortable
           (match getParam (resolveParams input) "sort" with
            | some k =>
              if k != "" && jsHasProp config.sortable k then k
              else config.defaultSort.key
            | none => config.defaultSort.key))) :=
  rfl

theorem parseListQuery_limit (input : QueryInput) (config : ListQueryConfig) :
    (parseListQuery input config).limit =
      parseIntClamped (getParam (resolveParams input) "limit") 1
        (some (config.maxLimit.getD MAX_LIMIT))
        (config.defaultLimit.getD DEFAULT_LIMIT) :=
  rfl

theorem parseListQuery_offset (input : QueryInput) (config : ListQueryConfig) :
    (parseListQuery input config).offset =
      parseIntClamped (getParam (resolveParams input) "offset") 0 none 0 :=
  rfl

/-! ### Concrete configurations used by witnesses and counterexamples -/

/-- A well-formed sample configuration: two column filters (an `eq` filter
on `status` and an `in` filter on `tag`), three sortable keys, default sort
`created_at desc`, default limit/maxLimit left unset (20/100). -/
def cfgBasic : ListQueryConfig :=
  { filters :=
      [("status", { column := { name := "S" }, op := none, parse := none }),
       ("tag", { column := { name := "T" }, op := some FilterOp.inOp,
                 parse := none })]
    customFilters := []
    sortable :=
      [("a", { name := "A" }), ("b", { name := "B" }),
       ("created_at", { name := "C" })]
    defaultSort := { key := "created_at", dir := SortDir.desc }
    defaultLimit := none
    maxLimit := none }

/-- A configuration whose (positive) default limit exceeds its maxLimit:
`defaultLimit = 200`, `maxLimit = 100`. -/
def cfgDefaultOverMax : ListQueryConfig :=
  { filters := []
    customFilters := []
    sortable := [("a", { name := "A" })]
    defaultSort := { key := "a", dir := SortDir.asc }
    defaultLimit := some 200
    maxLimit := some 100 }

/-! ### Claims -/

/-- C1: for every accepted input shape and every configuration,
`parseListQuery` is total (the embedding is a total function — no code path
raises) and returns a well-formed `ParsedListQuery`: the offset is
non-negative, the limit is either the configured default (the documented
fallback for malformed/missing input) or at least 1 (the clamped parse),
and the order-by is always an ordering expression (ascending or descending
over the resolved sort column). -/
theorem parseListQuery_total_wellformed (input : QueryInput)
    (config : ListQueryConfig) :
    0 ≤ (parseListQuery input config).offset ∧
    ((parseListQuery input config).limit = config.defaultLimit.getD DEFAULT_LIMIT ∨
      1 ≤ (parseListQuery input config).limit) ∧
    (∃ c, (parseListQuery input config).orderBy = SQLExpr.ascE c ∨
      (parseListQuery input config).orderBy = SQLExpr.descE c) := by
  refine ⟨?_, ?_, ?_⟩
  · rw [parseListQuery_offset]
    rcases parseIntClamped_eq_fallback_or_ge
      (getParam (resolveParams input) "offset") 0 none 0 with h | h
    · rw [h]
    · exact h
  · rw [parseListQuery_limit]
    exact parseIntClamped_eq_fallback_or_ge _ 1 _ _
  · rw [parseListQuery_orderBy]
    cases (match getParam (resolveParams input) "order" with
           | some "asc" => SortDir.asc
           | some "desc" => SortDir.desc
           | _ => config.defaultSort.dir) with
    | asc => exact ⟨_, Or.inl rfl⟩
    | desc => exact ⟨_, Or.inr rfl⟩

/-- C2 counterexample: with the positive configuration
`defaultLimit = 200`, `maxLimit = 100` and no `limit` parameter, the result
limit is 200, violating `limit <= config.maxLimit` — the default-limit
fallback is not clamped. -/
theorem limit_invariant_counterexample :
    (parseListQuery (QueryInput.record []) cfgDefaultOverMax).limit = 200 ∧
    ¬((parseListQuery (QueryInput.record []) cfgDefaultOverMax).limit ≤
        cfgDefaultOverMax.maxLimit.getD MAX_LIMIT) := by
  refine ⟨rfl, ?_⟩
  decide

/-- C2 amended: provided the effective default limit
(`config.defaultLimit`, or 20 when unset) itself lies in
`[1, effective maxLimit]`, then for every input
`1 <= result.limit <= config.maxLimit` (with maxLimit defaulting to 100
when unset), including when the limit parameter is absent or unparseable
and the configured default limit is used. -/
theorem limit_invariant_of_defaults_in_range (input : QueryInput)
    (config : ListQueryConfig)
    (h1 : 1 ≤ config.defaultLimit.getD DEFAULT_LIMIT)
    (h2 : config.defaultLimit.getD DEFAULT_LIMIT ≤ config.maxLimit.getD MAX_LIMIT) :
    1 ≤ (parseListQuery input config).limit ∧
    (parseListQuery input config).limit ≤ config.maxLimit.getD MAX_LIMIT := by
  rw [parseListQuery_limit]
  cases getParam (resolveParams input) "limit" with
  | none => rw [parseIntClamped_null]; exact ⟨h1, h2⟩
  | some s =>
    cases hp : jsParseInt s with
    | none => rw [parseIntClamped_nan s _ _ _ hp]; exact ⟨h1, h2⟩
    | some n =>
      rw [parseIntClamped_parsed_bounded s _ _ _ n hp]
      exact ⟨le_max_left 1 _, max_le (le_trans h1 h2) (min_le_left _ _)⟩

/-- C2 witness: `cfgBasic` has its defaults in range, and on input
`limit=500` the theorem yields `1 <= limit <= 100`. -/
theorem limit_invariant_witness :
    (1 ≤ cfgBasic.defaultLimit.getD DEFAULT_LIMIT ∧
     cfgBasic.defaultLimit.getD DEFAULT_LIMIT ≤ cfgBasic.maxLimit.getD MAX_LIMIT) ∧
    (1 ≤ (parseListQuery (QueryInput.record [("limit", "500")]) cfgBasic).limit ∧
     (parseListQuery (QueryInput.record [("limit", "500")]) cfgBasic).limit ≤
       cfgBasic.maxLimit.getD MAX_LIMIT) :=
  ⟨⟨by decide, by decide⟩,
   limit_invariant_of_defaults_in_range (QueryInput.record [("limit", "500")])
     cfgBasic (by decide) (by decide)⟩

/-- C8: pagination resolution. The result limit is the configured default
(20 when unset) when the `limit` parameter is absent or unparseable
(which includes the empty string), and otherwise the leading-digit parse
(`jsParseInt`, truncating any fractional suffix) clamped to
`[1, maxLimit]` (100 when unset); the result offset is 0 when the `offset`
parameter is absent or unparseable, and otherwise the parse clamped below
by 0 with no upper bound. -/
theorem pagination_resolution (input : QueryInput) (config : ListQueryConfig) :
    (parseListQuery input config).limit =
      (match getParam (resolveParams input) "limit" with
       | none => config.defaultLimit.getD 20
       | some s =>
         match jsParseInt s with
         | none => config.defaultLimit.getD 20
         | some n => max 1 (min (config.maxLimit.getD 100) n)) ∧
    (parseListQuery input config).offset =
      (match getParam (resolveParams input) "offset" with
       | none => 0
       | some s =>
         match jsParseInt s with
         | none => 0
         | some n => max 0 n) := by
  constructor
  · rw [parseListQuery_limit]
    cases getParam (resolveParams input) "limit" with
    | none => rfl
    | some s =>
      cases hp : jsParseInt s with
      | none => simp [parseIntClamped_nan s _ _ _ hp, hp, DEFAULT_LIMIT]
      | some n =>
        simp [parseIntClamped_parsed_bounded s _ _ _ n hp, hp,
          DEFAULT_LIMIT, MAX_LIMIT]
  · rw [parseListQuery_offset]
    cases getParam (resolveParams input) "offset" with
    | none => rfl
    | some s =>
      cases hp : jsParseInt s with
      | none => simp [parseIntClamped_nan s _ _ _ hp, hp]
      | some n => simp [parseIntClamped_parsed_unbounded s _ _ n hp, hp]

/-- C4: divergence at the failing input `sort=constructor`. The name
`constructor` is NOT declared in `cfgBasic`'s sortable allowlist, so by the
claim the effective key must be the default (`created_at`, giving the
descending ordering over column `C`); but the source's test
`sortKey in config.sortable` is the JS `in` operator, which finds the
inherited `Object.prototype.constructor`, so the effective key becomes
`constructor` and `desc()` receives the inherited prototype member instead
of a column — a different ordering than the claimed fallback. -/
theorem sort_prototype_leak :
    (parseListQuery (QueryInput.searchParams [("sort", "constructor")])
        cfgBasic).orderBy = SQLExpr.descE JsProp.inherited ∧
    recordGet cfgBasic.sortable "constructor" = none ∧
    (parseListQuery (QueryInput.searchParams []) cfgBasic).orderBy =
      SQLExpr.descE (JsProp.own { name := "C" }) ∧
    SQLExpr.descE (JsProp.inherited : JsProp Column) ≠
      SQLExpr.descE (JsProp.own { name := "C" }) := by
  refine ⟨rfl, rfl, rfl, ?_⟩
  intro h
  injection h with h1
  exact JsProp.noConfusion h1

/-- C3 counterexample: with `cfgBasic` (whose sortable allowlist declares
both `a` and `b`) and the duplicated pairs `sort=b, sort=a`, the code
resolves the FIRST occurrence `b` — the ordering is over column `B` — while
last-occurrence-wins would resolve `a` (column `A`). -/
theorem sort_last_occurrence_counterexample :
    (parseListQuery (QueryInput.searchParams [("sort", "b"), ("sort", "a")])
        cfgBasic).orderBy = SQLExpr.descE (JsProp.own { name := "B" }) ∧
    SQLExpr.descE (JsProp.own { name := "B" }) ≠
      SQLExpr.descE (JsProp.own { name := "A" }) := by
  refine ⟨rfl, ?_⟩
  intro h
  injection h with h1
  injection h1 with h2
  injection h2 with h3
  exact absurd h3 (by decide)

/-- C3 amended: the first occurrence of `sort` (resp. `order`) wins
(`URLSearchParams.get` returns the first value): once the name already
occurs among the pairs, appending a further occurrence never changes the
resolved ordering. -/
theorem sort_first_occurrence_wins (config : ListQueryConfig)
    (ps : List (String × String)) (v w : String) :
    (ps.any (fun kv => kv.1 == "sort") = true →
      (parseListQuery (QueryInput.searchParams (ps ++ [("sort", v)]))
          config).orderBy =
        (parseListQuery (QueryInput.searchParams ps) config).orderBy) ∧
    (ps.any (fun kv => kv.1 == "order") = true →
      (parseListQuery (QueryInput.searchParams (ps ++ [("order", w)]))
          config).orderBy =
        (parseListQuery (QueryInput.searchParams ps) config).orderBy) := by
  constructor
  · intro h
    rw [parseListQuery_orderBy, parseListQuery_orderBy]
    simp only [resolveParams]
    rw [getParam_append_of_found ps [("sort", v)] "sort" h,
      getParam_append_of_absent_right ps [("sort", v)] "order"
        (by intro kv hkv; rw [List.mem_singleton] at hkv; subst hkv; rfl)]
  · intro h
    rw [parseListQuery_orderBy, parseListQuery_orderBy]
    simp only [resolveParams]
    rw [getParam_append_of_found ps [("order", w)] "order" h,
      getParam_append_of_absent_right ps [("order", w)] "sort"
        (by intro kv hkv; rw [List.mem_singleton] at hkv; subst hkv; rfl)]

/-- C3 witness: with `sort=a, order=desc` already present, appending
`sort=b` (resp. `order=asc`) leaves the resolved ordering unchanged. -/
theorem sort_first_occurrence_wins_witness :
    ([(("sort" : String), ("a" : String)), ("order", "desc")].any
        (fun kv => kv.1 == "sort") = true) ∧
    ((parseListQuery (QueryInput.searchParams
          ([("sort", "a"), ("order", "desc")] ++ [("sort", "b")]))
        cfgBasic).orderBy =
      (parseListQuery (QueryInput.searchParams
          [("sort", "a"), ("order", "desc")]) cfgBasic).orderBy) ∧
    ([(("sort" : String), ("a" : String)), ("order", "desc")].any
        (fun kv => kv.1 == "order") = true) ∧
    ((parseListQuery (QueryInput.searchParams
          ([("sort", "a"), ("order", "desc")] ++ [("order", "asc")]))
        cfgBasic).orderBy =
      (parseListQuery (QueryInput.searchParams
          [("sort", "a"), ("order", "desc")]) cfgBasic).orderBy) :=
  ⟨by decide,
   (sort_first_occurrence_wins cfgBasic [("sort", "a"), ("order", "desc")]
     "b" "x").1 (by decide),
   by decide,
   (sort_first_occurrence_wins cfgBasic [("sort", "a"), ("order", "desc")]
     "x" "asc").2 (by decide)⟩

/-- C5: divergence at the failing input `constructor=x`. The name
`constructor` is declared neither as a column filter nor as a custom filter
of `cfgBasic` and is not reserved, so by the claim adding the pair must not
change the filter condition; but the source's access
`config.filters[key]` finds the inherited, truthy
`Object.prototype.constructor`, reads `.op`/`.parse`/`.column` off it (all
`undefined`) and appends `eq(undefined, "x")` — the `where` result changes
from absent to that condition. -/
theorem prototype_key_interference :
    (recordGet cfgBasic.filters "constructor" = none ∧
     recordGet cfgBasic.customFilters "constructor" = none ∧
     RESERVED_PARAMS.contains "constructor" = false) ∧
    (parseListQuery (QueryInput.searchParams [("constructor", "x")])
        cfgBasic).where_ =
      some (SQLExpr.andE [SQLExpr.eqE none (JsValue.str "x")]) ∧
    (parseListQuery (QueryInput.searchParams []) cfgBasic).where_ = none :=
  ⟨⟨rfl, rfl, rfl⟩, rfl, rfl⟩

/-- C6: the conditions appended by the filter loop are combined with
logical AND, and when zero conditions were appended the `where` field is
absent (`none`) — not an always-true predicate and not an error. -/
theorem where_and_composition (input : QueryInput) (config : ListQueryConfig) :
    ((parseListQuery input config).where_ = none ↔
      filterConditions config (resolveParams input) = []) ∧
    (∀ c cs, filterConditions config (resolveParams input) = c :: cs →
      (parseListQuery input config).where_ =
        some (SQLExpr.andE (c :: cs))) := by
  rw [parseListQuery_where]
  constructor
  · cases hfc : filterConditions config (resolveParams input) with
    | nil => simp
    | cons c cs => simp
  · intro c cs hfc
    rw [hfc]

/-- C6 witness: `status=LISTED` appends exactly one equality condition, and
the `where` is the AND of that one-element list; with no matching pairs the
`where` is absent. -/
theorem where_and_composition_witness :
    (filterConditions cfgBasic
        (resolveParams (QueryInput.record [("status", "LISTED")])) =
      [SQLExpr.eqE (some { name := "S" }) (JsValue.str "LISTED")]) ∧
    ((parseListQuery (QueryInput.record [("status", "LISTED")])
        cfgBasic).where_ =
      some (SQLExpr.andE
        [SQLExpr.eqE (some { name := "S" }) (JsValue.str "LISTED")])) ∧
    ((parseListQuery (QueryInput.record []) cfgBasic).where_ = none ↔
      filterConditions cfgBasic (resolveParams (QueryInput.record [])) = []) :=
  ⟨rfl,
   (where_and_composition (QueryInput.record [("status", "LISTED")]) cfgBasic).2
     (SQLExpr.eqE (some { name := "S" }) (JsValue.str "LISTED")) [] rfl,
   (where_and_composition (QueryInput.record []) cfgBasic).1⟩

/-- C7: for a column filter with the membership operator and the default
identity coercion, the raw value is split on commas and each segment kept
as its own (string) element: `a,b,c` yields a membership predicate over the
3-element sequence, `a` over the 1-element sequence. -/
theorem membership_split_identity (col : Column) (key : String)
    (config : ListQueryConfig)
    (hf : recordGet config.filters key =
      some { column := col, op := some FilterOp.inOp, parse := none })
    (hres : RESERVED_PARAMS.contains key = false) :
    (parseListQuery (QueryInput.searchParams [(key, "a,b,c")]) config).where_ =
      some (SQLExpr.andE [SQLExpr.inArrayE (some col)
        [JsValue.str "a", JsValue.str "b", JsValue.str "c"]]) ∧
    (parseListQuery (QueryInput.searchParams [(key, "a")]) config).where_ =
      some (SQLExpr.andE [SQLExpr.inArrayE (some col) [JsValue.str "a"]]) := by
  have hres' : key ∉ RESERVED_PARAMS := by simpa using hres
  have hsplit3 : jsSplitComma "a,b,c" = ["a", "b", "c"] := by decide
  have hsplit1 : jsSplitComma "a" = ["a"] := by decide
  constructor
  · rw [parseListQuery_where]
    simp only [resolveParams]
    have h1 : filterConditions config [(key, "a,b,c")] =
        [SQLExpr.inArrayE (some col)
          [JsValue.str "a", JsValue.str "b", JsValue.str "c"]] := by
      simp [filterConditions, jsRecordGet, hres', hf, applyOperator, hsplit3]
    rw [h1]
  · rw [parseListQuery_where]
    simp only [resolveParams]
    have h1 : filterConditions config [(key, "a")] =
        [SQLExpr.inArrayE (some col) [JsValue.str "a"]] := by
      simp [filterConditions, jsRecordGet, hres', hf, applyOperator, hsplit1]
    rw [h1]

/-- C7 witness: `cfgBasic` declares `tag` as a membership filter with
identity coercion; `tag=a,b,c` and `tag=a` give the 3- and 1-element
membership predicates. -/
theorem membership_split_identity_witness :
    (recordGet cfgBasic.filters "tag" =
      some { column := { name := "T" }, op := some FilterOp.inOp,
             parse := none } ∧
     RESERVED_PARAMS.contains "tag" = false) ∧
    ((parseListQuery (QueryInput.searchParams [("tag", "a,b,c")])
        cfgBasic).where_ =
      some (SQLExpr.andE [SQLExpr.inArrayE (some { name := "T" })
        [JsValue.str "a", JsValue.str "b", JsValue.str "c"]])) ∧
    ((parseListQuery (QueryInput.searchParams [("tag", "a")])
        cfgBasic).where_ =
      some (SQLExpr.andE [SQLExpr.inArrayE (some { name := "T" })
        [JsValue.str "a"]])) :=
  ⟨⟨rfl, rfl⟩,
   (membership_split_identity { name := "T" } "tag" cfgBasic rfl rfl).1,
   (membership_split_identity { name := "T" } "tag" cfgBasic rfl rfl).2⟩

/-- C10 (implicit): for a membership filter with coercion `f`, empty
segments produced by consecutive commas are retained and each passed
through `f` — `a,,b` yields the 3-element sequence
`[f "a", f "", f "b"]` — even though a wholly empty parameter value is
skipped before the split ever happens. -/
theorem membership_empty_segments_retained (col : Column) (key : String)
    (f : String → JsValue) (config : ListQueryConfig)
    (hf : recordGet config.filters key =
      some { column := col, op := some FilterOp.inOp, parse := some f })
    (hres : RESERVED_PARAMS.contains key = false) :
    (parseListQuery (QueryInput.searchParams [(key, "a,,b")]) config).where_ =
      some (SQLExpr.andE [SQLExpr.inArrayE (some col) [f "a", f "", f "b"]]) ∧
    (parseListQuery (QueryInput.searchParams [(key, "")]) config).where_ =
      none := by
  have hres' : key ∉ RESERVED_PARAMS := by simpa using hres
  have hsplit : jsSplitComma "a,,b" = ["a", "", "b"] := by decide
  constructor
  · rw [parseListQuery_where]
    simp only [resolveParams]
    have h1 : filterConditions config [(key, "a,,b")] =
        [SQLExpr.inArrayE (some col) [f "a", f "", f "b"]] := by
      simp [filterConditions, jsRecordGet, hres', hf, applyOperator, hsplit]
    rw [h1]
  · rw [parseListQuery_where]
    simp only [resolveParams]
    have h1 : filterConditions config [(key, "")] = [] := by
      simp [filterConditions]
    rw [h1]

/-- A membership-filter configuration with an explicit (identity-shaped)
coercion function, for the C10 witness. -/
def cfgParse : ListQueryConfig :=
  { filters :=
      [("tag", { column := { name := "T" }, op := some FilterOp.inOp,
                 parse := some JsValue.str })]
    customFilters := []
    sortable := [("a", { name := "A" })]
    defaultSort := { key := "a", dir := SortDir.asc }
    defaultLimit := none
    maxLimit := none }

/-- C10 witness: in `cfgParse`, `tag=a,,b` yields the 3-element sequence
with the coercion of the empty string in the middle, while `tag=` (empty
value) is skipped entirely. -/
theorem membership_empty_segments_retained_witness :
    (recordGet cfgParse.filters "tag" =
      some { column := { name := "T" }, op := some FilterOp.inOp,
             parse := some JsValue.str } ∧
     RESERVED_PARAMS.contains "tag" = false) ∧
    ((parseListQuery (QueryInput.searchParams [("tag", "a,,b")])
        cfgParse).where_ =
      some (SQLExpr.andE [SQLExpr.inArrayE (some { name := "T" })
        [JsValue.str "a", JsValue.str "", JsValue.str "b"]])) ∧
    ((parseListQuery (QueryInput.searchParams [("tag", "")])
        cfgParse).where_ = none) :=
  ⟨⟨rfl, rfl⟩,
   (membership_empty_segments_retained { name := "T" } "tag" JsValue.str
     cfgParse rfl rfl).1,
   (membership_empty_segments_retained { name := "T" } "tag" JsValue.str
     cfgParse rfl rfl).2⟩

/-- Data store and query for the C9 concrete scenario: the row query
returns 2 rows, the count query would report 999 (and must be ignored in
heuristic mode); limit 20, offset 10. -/
def heurDb : Db Nat :=
  { selectRows := fun _ _ _ _ => [7, 8]
    countTotals := fun _ => [999] }

def heurQuery : ParsedListQuery :=
  { where_ := none, orderBy := SQLExpr.ascE JsProp.undef, limit := 20,
    offset := 10 }

/-- C9: in heuristic mode (`count: false`) `runListQuery` issues only the
row query — the result is independent of the count capability — and
computes `total = offset + rows.length` and
`has_more = (rows.length == limit)`; in particular with limit 20, offset 10
and 2 returned rows, `total = 12` and `has_more = false`. -/
theorem runListQuery_heuristic_metadata {Row : Type} (db : Db Row)
    (baseWhere : Option SQLExpr) (query : ParsedListQuery) :
    ((runListQuery db baseWhere query false).total =
      query.offset + ((runListQuery db baseWhere query false).rows.length : Int)) ∧
    ((runListQuery db baseWhere query false).has_more = true ↔
      ((runListQuery db baseWhere query false).rows.length : Int) = query.limit) ∧
    (∀ altCount : Option SQLExpr → List Int,
      runListQuery { selectRows := db.selectRows, countTotals := altCount }
        baseWhere query false = runListQuery db baseWhere query false) ∧
    (runListQuery heurDb none heurQuery false).total = 12 ∧
    (runListQuery heurDb none heurQuery false).has_more = false := by
  refine ⟨rfl, ?_, fun altCount => rfl, rfl, rfl⟩
  simp [runListQuery]

